import Mathlib

/-!
# Verification of the conversation-orchestration engine (`backend/experiment.py`)

Shallow embedding of the `Experiment` class. The Python code drives a
round-robin multi-agent conversation against a hosted model client and
collects transcripts across independent samples.

Modelling decisions:
* The Python config is a `Dict[str, Any]`; the keys whose presence or absence
  the code's behaviour depends on in interesting ways (`agents`, `num_turns`,
  `num_samples`) are modelled as `Option` fields, so a missing key can be
  represented (`dict[key]` on a missing key raises `KeyError`;
  `dict.get(key, default)` returns the default). `model_name` is modelled as a
  plain field, i.e. assumed present, since no claim concerns its absence.
* `num_turns` and `num_samples` are Python ints, so they are embedded as `Int`;
  `range(n)` for `n <= 0` is empty, which `Int.toNat` reproduces.
* The model client (`self.client.messages.create`) is an external collaborator.
  It is embedded as an `Adapter`: a function from the global call index and the
  call arguments to either generated text or a raised error. The call index is
  threaded through the run (one `Anthropic` client object serves all calls of
  `run_samples`), letting an adapter behave differently on different calls.
* A Python exception raised by the client propagates out of
  `_run_conversation` and `run_samples` uncaught; this is embedded with
  `Except`, whose error short-circuits the rest of the run.
* `ConvState.calls` and `ConvState.callIdx` are ghost instrumentation: they
  record the exact argument tuple of every client call in order, so theorems
  can speak about what was sent to the model. They affect nothing else.
-/

/-- One entry of `config["agents"]`: a dict with keys `name` and
`system_prompt`. -/
structure AgentConfig where
  name : String
  system_prompt : String
deriving DecidableEq

/-- The experiment config dict. `agents`, `num_turns`, `num_samples` are
`Option` so that a missing dict key is representable. -/
structure Config where
  model_name : String
  agents : Option (List AgentConfig)
  num_turns : Option Int
  num_samples : Option Int
deriving DecidableEq

/-- One element of the `messages` list sent to the model:
`{"role": ..., "content": ...}`. -/
structure HistoryEntry where
  role : String
  content : String
deriving DecidableEq

/-- One element of the transcript built in `_run_conversation`:
`{"role": "assistant", "speaker": ..., "content": ...}`. -/
structure TranscriptEntry where
  role : String
  speaker : String
  content : String
deriving DecidableEq

/-- The argument tuple of one `client.messages.create` call. -/
structure ModelCall where
  model : String
  max_tokens : Nat
  system : String
  messages : List HistoryEntry
deriving DecidableEq

/-- Error kinds a model call can raise (`ModelCallError` taxonomy of the
spec; the code does not distinguish them, any exception propagates). -/
inductive ErrorKind where
  | RateLimited
  | Timeout
  | InvalidRequest
  | ServerError
deriving DecidableEq

/-- An error that aborts a run: a Python `KeyError` on a missing config key,
or an exception raised by the model client. -/
inductive RunError where
  | keyError (key : String)
  | modelError (kind : ErrorKind)
deriving DecidableEq

/-- The external model client: given the global call index (how many calls
this client object has served so far) and the call arguments, returns the
generated text `response.content[0].text`, or raises. -/
def Adapter : Type := Nat → ModelCall → Except ErrorKind String

/-- The local state of one `_run_conversation` invocation:
`messages` (the transcript being built), `conversation_history`,
`current_message`, plus the ghost call trace and global call index. -/
structure ConvState where
  messages : List TranscriptEntry
  conversation_history : List HistoryEntry
  current_message : String
  calls : List ModelCall
  callIdx : Nat
deriving DecidableEq

/-- The seed greeting literal of `_run_conversation`. -/
def greeting : String := "Hello! I\x27m looking forward to our conversation."

/-- The argument tuple of the `client.messages.create` call issued for
`agent` in state `st`: `model=config["model_name"]`, `max_tokens=1000`,
`system=agent_config["system_prompt"]`,
`messages=conversation_history + [{"role": "user", "content": current_message}]`. -/
def mkCall (cfg : Config) (ag : AgentConfig) (st : ConvState) : ModelCall :=
  { model := cfg.model_name
  , max_tokens := 1000
  , system := ag.system_prompt
  , messages := st.conversation_history ++ [⟨"user", st.current_message⟩] }

/-- The state update after a successful call returned text `t`:
append the transcript entry, extend `conversation_history` with the user and
assistant entries, set `current_message = t`; record the call. -/
def stepState (cfg : Config) (ag : AgentConfig) (st : ConvState) (t : String) :
    ConvState :=
  { messages := st.messages ++ [⟨"assistant", ag.name, t⟩]
  , conversation_history :=
      st.conversation_history ++
        [⟨"user", st.current_message⟩, ⟨"assistant", t⟩]
  , current_message := t
  , calls := st.calls ++ [mkCall cfg ag st]
  , callIdx := st.callIdx + 1 }

/-- One iteration of the inner `for agent_config in self.config["agents"]`
body: issue the model call; on an exception the run aborts. -/
def runTurn (cfg : Config) (adapter : Adapter) (ag : AgentConfig)
    (st : ConvState) : Except RunError ConvState :=
  match adapter st.callIdx (mkCall cfg ag st) with
  | .error e => .error (.modelError e)
  | .ok t => .ok (stepState cfg ag st t)

/-- The inner loop over the agent roster within one round. -/
def runAgents (cfg : Config) (adapter : Adapter) :
    List AgentConfig → ConvState → Except RunError ConvState
  | [], st => .ok st
  | ag :: rest, st =>
    match runTurn cfg adapter ag st with
    | .error e => .error e
    | .ok st' => runAgents cfg adapter rest st'

/-- The outer loop `for _ in range(self.config["num_turns"])`. The
expression `self.config["agents"]` is evaluated at each outer iteration, so
a missing `agents` key only raises once at least one round runs. -/
def runRounds (cfg : Config) (adapter : Adapter) :
    Nat → ConvState → Except RunError ConvState
  | 0, st => .ok st
  | n + 1, st =>
    match cfg.agents with
    | none => .error (.keyError "agents")
    | some ags =>
      match runAgents cfg adapter ags st with
      | .error e => .error e
      | .ok st' => runRounds cfg adapter n st'

/-- The initial `_run_conversation` state, at global call index `k`:
`messages = []`, `conversation_history = []`, `current_message` seeded with
the greeting literal. -/
def initStateAt (k : Nat) : ConvState :=
  { messages := []
  , conversation_history := []
  , current_message := greeting
  , calls := []
  , callIdx := k }

/-- `Experiment._run_conversation`, at global call index `k`. Looking up
`self.config["num_turns"]` raises `KeyError` if the key is absent. On
success the final `ConvState` is returned; the Python function returns its
`messages` field. -/
def runConversation (cfg : Config) (adapter : Adapter) (k : Nat) :
    Except RunError ConvState :=
  match cfg.num_turns with
  | none => .error (.keyError "num_turns")
  | some nt => runRounds cfg adapter nt.toNat (initStateAt k)

/-- The loop of `Experiment.run_samples`: run `n` conversations in order,
threading the global call index, collecting each `result` in submission
order; an uncaught exception aborts the whole loop, discarding `results`. -/
def runSamplesAux (cfg : Config) (adapter : Adapter) :
    Nat → Nat → Except RunError (List (List TranscriptEntry))
  | _, 0 => .ok []
  | k, n + 1 =>
    match runConversation cfg adapter k with
    | .error e => .error e
    | .ok st =>
      match runSamplesAux cfg adapter st.callIdx n with
      | .error e => .error e
      | .ok rest => .ok (st.messages :: rest)

/-- `Experiment.run_samples`:
`num_samples = self.config.get("num_samples", 1)`, then the sequential
sample loop. -/
def runSamples (cfg : Config) (adapter : Adapter) :
    Except RunError (List (List TranscriptEntry)) :=
  runSamplesAux cfg adapter 0 ((cfg.num_samples.getD 1).toNat)

/-!
## Context Weaver view

The spec (§4.1) isolates a "Context Weaver" with state
`(history, current_message)` and operations `buildRequestContext` /
`advance`. In the code these are the inline expression
`conversation_history + [{"role": "user", "content": current_message}]`
(a pure list concatenation, mutating nothing) and the
`conversation_history.extend(...)`/`current_message = content` pair.
-/

/-- The Context Weaver state carved out of `ConvState`. -/
structure WeaverState where
  history : List HistoryEntry
  current_message : String
deriving DecidableEq

/-- `buildRequestContext()`: the request context expression. It is a pure
expression in the code (list concatenation builds a fresh list), so it is
modelled as returning the context together with the (unchanged) state. -/
def buildRequestContext (s : WeaverState) :
    List HistoryEntry × WeaverState :=
  (s.history ++ [⟨"user", s.current_message⟩], s)

/-- `advance(responseText)`: `conversation_history.extend([...])` followed by
`current_message = content`. -/
def advance (s : WeaverState) (responseText : String) : WeaverState :=
  { history :=
      s.history ++
        [⟨"user", s.current_message⟩, ⟨"assistant", responseText⟩]
  , current_message := responseText }

/-- The weaver state embedded in a conversation state. -/
def ConvState.weaver (st : ConvState) : WeaverState :=
  ⟨st.conversation_history, st.current_message⟩

/-- Modelled from the spec: §3's `ExperimentConfig` carries a "fixed per-call
token ceiling" field. No such entry exists in the code's config dict and no
code under `src/` reads one; this structure follows the spec's words so that
the ceiling the spec says is carried by the config can be compared with the
`max_tokens` value the code actually passes. -/
structure SpecExperimentConfig where
  base : Config
  token_ceiling : Nat
deriving DecidableEq

/-- Extract the final state of a successful run (used to name concrete
run results in closed statements). -/
def okState (r : Except RunError ConvState) : ConvState :=
  match r with
  | .ok st => st
  | .error _ => initStateAt 0


/-- The global call index reached after `j` successful samples, starting at
call index `k`; `none` if some of those samples failed. -/
def callIdxAfterSamples (cfg : Config) (adapter : Adapter) :
    Nat → Nat → Option Nat
  | k, 0 => some k
  | k, j + 1 =>
    match runConversation cfg adapter k with
    | .error _ => none
    | .ok st => callIdxAfterSamples cfg adapter st.callIdx j

/-!
## Concrete instances used in closed statements
-/

/-- An always-succeeding model client answering `"hi"`. -/
def adOk : Adapter := fun _ _ => .ok "hi"

/-- A model client answering `"reply1"`, `"reply2"`, ... by call order. -/
def adSeq : Adapter := fun i _ => .ok ("reply" ++ toString (i + 1))

/-- A client that fails its third call (global index 2) with a server error
and succeeds otherwise. -/
def adFail3 : Adapter := fun i _ =>
  if i = 2 then .error .ServerError else .ok "ok"

/-- A client that is rate-limited on exactly its first call (global index 0)
and succeeds on every later call: it fails `k = 1` times, then succeeds. -/
def adRate1 : Adapter := fun i _ =>
  if i = 0 then .error .RateLimited else .ok "ok"

/-- A two-agent roster `[A, B]`. -/
def rosterAB : List AgentConfig := [⟨"A", "sysA"⟩, ⟨"B", "sysB"⟩]

/-- Config: agents `[A, B]`, two rounds, one sample. -/
def cfgAB : Config := ⟨"claude-3", some rosterAB, some 2, some 1⟩

/-- Config: one agent, one round, one sample. -/
def cfgOne : Config := ⟨"claude-3", some [⟨"A", "sysA"⟩], some 1, some 1⟩

/-- Config: one agent, one round, five samples (one model call per sample). -/
def cfgFive : Config := ⟨"claude-3", some [⟨"A", "sysA"⟩], some 1, some 5⟩

/-- Config with an empty agent roster, `num_turns = 2`, `num_samples = 3`. -/
def cfgEmptyRoster : Config := ⟨"claude-3", some [], some 2, some 3⟩

/-- Config with `num_turns = -1` (non-positive). -/
def cfgNegTurns : Config := ⟨"claude-3", some [⟨"A", "sysA"⟩], some (-1), some 2⟩

/-- Config with `num_samples = 0` (non-positive). -/
def cfgZeroSamples : Config := ⟨"claude-3", some [⟨"A", "sysA"⟩], some 1, some 0⟩

/-- Config whose dict has no `num_samples` key. -/
def cfgNoSamplesKey : Config := ⟨"claude-3", some [⟨"A", "sysA"⟩], some 1, none⟩

/-- Config whose dict has no `num_turns` key. -/
def cfgNoTurnsKey : Config := ⟨"claude-3", some [⟨"A", "sysA"⟩], none, some 1⟩

/-- Config whose dict has no `agents` key. -/
def cfgNoAgentsKey : Config := ⟨"claude-3", none, some 1, some 1⟩

/-- A spec-style config (see `SpecExperimentConfig`) wrapping `cfgOne` and
carrying token ceiling `42`. -/
def specCfg42 : SpecExperimentConfig := ⟨cfgOne, 42⟩

/-!
## Invariant lemmas
-/

/-- A successful `runTurn` is exactly a successful adapter call followed by
the `stepState` update. -/
theorem runTurn_ok {cfg : Config} {adapter : Adapter} {ag : AgentConfig}
    {st st' : ConvState} (h : runTurn cfg adapter ag st = .ok st') :
    ∃ t, adapter st.callIdx (mkCall cfg ag st) = .ok t
      ∧ st' = stepState cfg ag st t := by
  cases hh : adapter st.callIdx (mkCall cfg ag st) with
  | error e => simp [runTurn, hh] at h
  | ok t =>
    simp [runTurn, hh] at h
    exact ⟨t, rfl, h.symm⟩

/-- Effect of one roster pass (`runAgents`) on the observable projections of
the conversation state. -/
theorem runAgents_ok (cfg : Config) (adapter : Adapter) :
    ∀ (ags : List AgentConfig) (st st' : ConvState),
      runAgents cfg adapter ags st = .ok st' →
      st'.messages.map (fun e => e.speaker)
          = st.messages.map (fun e => e.speaker) ++ ags.map (fun a => a.name)
      ∧ st'.messages.map (fun e => e.role)
          = st.messages.map (fun e => e.role)
              ++ List.replicate ags.length "assistant"
      ∧ st'.conversation_history.map (fun e => e.role)
          = st.conversation_history.map (fun e => e.role)
              ++ (List.replicate ags.length ["user", "assistant"]).flatten
      ∧ st'.calls.map (fun c => c.max_tokens)
          = st.calls.map (fun c => c.max_tokens)
              ++ List.replicate ags.length 1000
      ∧ st'.calls.map (fun c => c.model)
          = st.calls.map (fun c => c.model)
              ++ List.replicate ags.length cfg.model_name
      ∧ st'.calls.map (fun c => c.system)
          = st.calls.map (fun c => c.system)
              ++ ags.map (fun a => a.system_prompt)
      ∧ st'.callIdx = st.callIdx + ags.length := by
  intro ags
  induction ags with
  | nil =>
    intro st st' h
    simp [runAgents] at h
    subst h
    simp
  | cons ag rest ih =>
    intro st st' h
    simp only [runAgents] at h
    cases hturn : runTurn cfg adapter ag st with
    | error e => rw [hturn] at h; simp at h
    | ok st1 =>
      rw [hturn] at h
      simp only [] at h
      obtain ⟨t, hadapt, hstep⟩ := runTurn_ok hturn
      subst hstep
      obtain ⟨i1, i2, i3, i4, i5, i6, i7⟩ := ih (stepState cfg ag st t) st' h
      refine ⟨?_, ?_, ?_, ?_, ?_, ?_, ?_⟩
      · simp [i1, stepState, mkCall]
      · simp [i2, stepState, mkCall, List.replicate_succ]
      · simp [i3, stepState, mkCall, List.replicate_succ]
      · simp [i4, stepState, mkCall, List.replicate_succ]
      · simp [i5, stepState, mkCall, List.replicate_succ]
      · simp [i6, stepState, mkCall]
      · simp [i7, stepState]; omega

/-- Effect of `n` rounds (`runRounds`) on the observable projections, when
the roster is `ags`. -/
theorem runRounds_ok (cfg : Config) (adapter : Adapter)
    (ags : List AgentConfig) (hags : cfg.agents = some ags) :
    ∀ (n : Nat) (st st' : ConvState),
      runRounds cfg adapter n st = .ok st' →
      st'.messages.map (fun e => e.speaker)
          = st.messages.map (fun e => e.speaker)
              ++ (List.replicate n (ags.map (fun a => a.name))).flatten
      ∧ st'.messages.map (fun e => e.role)
          = st.messages.map (fun e => e.role)
              ++ List.replicate (n * ags.length) "assistant"
      ∧ st'.conversation_history.map (fun e => e.role)
          = st.conversation_history.map (fun e => e.role)
              ++ (List.replicate (n * ags.length) ["user", "assistant"]).flatten
      ∧ st'.calls.map (fun c => c.max_tokens)
          = st.calls.map (fun c => c.max_tokens)
              ++ List.replicate (n * ags.length) 1000
      ∧ st'.calls.map (fun c => c.model)
          = st.calls.map (fun c => c.model)
              ++ List.replicate (n * ags.length) cfg.model_name
      ∧ st'.calls.map (fun c => c.system)
          = st.calls.map (fun c => c.system)
              ++ (List.replicate n (ags.map (fun a => a.system_prompt))).flatten
      ∧ st'.callIdx = st.callIdx + n * ags.length := by
  intro n
  induction n with
  | zero =>
    intro st st' h
    simp [runRounds] at h
    subst h
    simp
  | succ m ih =>
    intro st st' h
    simp only [runRounds, hags] at h
    cases hpass : runAgents cfg adapter ags st with
    | error e => rw [hpass] at h; simp at h
    | ok st1 =>
      rw [hpass] at h
      simp only [] at h
      obtain ⟨a1, a2, a3, a4, a5, a6, a7⟩ := runAgents_ok cfg adapter ags st st1 hpass
      obtain ⟨i1, i2, i3, i4, i5, i6, i7⟩ := ih st1 st' h
      have hmul : (m + 1) * ags.length = ags.length + m * ags.length := by ring
      refine ⟨?_, ?_, ?_, ?_, ?_, ?_, ?_⟩
      · rw [i1, a1, List.replicate_succ, List.flatten_cons, List.append_assoc]
      · rw [i2, a2, hmul, List.replicate_add, List.append_assoc]
      · rw [i3, a3, hmul, List.replicate_add, List.flatten_append,
          List.append_assoc]
      · rw [i4, a4, hmul, List.replicate_add, List.append_assoc]
      · rw [i5, a5, hmul, List.replicate_add, List.append_assoc]
      · rw [i6, a6, List.replicate_succ, List.flatten_cons, List.append_assoc]
      · rw [i7, a7]; omega

/-- Effect of a whole successful `_run_conversation` on the observable
projections: closed forms for the transcript speakers and roles, the history
roles, and the argument trace of every model call. -/
theorem runConversation_ok {cfg : Config} {adapter : Adapter} {k : Nat}
    {nt : Int} {ags : List AgentConfig} {st' : ConvState}
    (hnt : cfg.num_turns = some nt) (hags : cfg.agents = some ags)
    (h : runConversation cfg adapter k = .ok st') :
    st'.messages.map (fun e => e.speaker)
        = (List.replicate nt.toNat (ags.map (fun a => a.name))).flatten
    ∧ st'.messages.map (fun e => e.role)
        = List.replicate (nt.toNat * ags.length) "assistant"
    ∧ st'.conversation_history.map (fun e => e.role)
        = (List.replicate (nt.toNat * ags.length) ["user", "assistant"]).flatten
    ∧ st'.calls.map (fun c => c.max_tokens)
        = List.replicate (nt.toNat * ags.length) 1000
    ∧ st'.calls.map (fun c => c.model)
        = List.replicate (nt.toNat * ags.length) cfg.model_name
    ∧ st'.calls.map (fun c => c.system)
        = (List.replicate nt.toNat (ags.map (fun a => a.system_prompt))).flatten
    ∧ st'.callIdx = k + nt.toNat * ags.length := by
  unfold runConversation at h
  rw [hnt] at h
  simp only [] at h
  have := runRounds_ok cfg adapter ags hags nt.toNat (initStateAt k) st' h
  simpa [initStateAt] using this

/-- Length of a flattened replicated block list. -/
theorem length_flatten_replicate (n : Nat) (l : List α) :
    (List.replicate n l).flatten.length = n * l.length := by
  induction n with
  | zero => simp
  | succ m ih =>
    rw [List.replicate_succ, List.flatten_cons, List.length_append, ih,
      Nat.succ_mul]
    omega

/-- Membership in a flattened replicated block list. -/
theorem mem_of_mem_flatten_replicate {x : α} {n : Nat} {l : List α}
    (h : x ∈ (List.replicate n l).flatten) : x ∈ l := by
  induction n with
  | zero => simp at h
  | succ m ih =>
    rw [List.replicate_succ, List.flatten_cons, List.mem_append] at h
    cases h with
    | inl h => exact h
    | inr h => exact ih h

/-!
## Claims
-/

/-- C1: in every successful conversation run, the model-facing
`conversation_history` role sequence is exactly `num_turns * len(agents)`
repetitions of `"user", "assistant"` — i.e. it strictly alternates starting
with `"user"` — its final length is `2 * num_turns * len(agents)`, and every
completed agent turn grows it by exactly 2 entries. -/
theorem history_alternation {cfg : Config} {adapter : Adapter} {k : Nat}
    {nt : Int} {ags : List AgentConfig} {st : ConvState}
    (hnt : cfg.num_turns = some nt) (hags : cfg.agents = some ags)
    (hrun : runConversation cfg adapter k = .ok st) :
    st.conversation_history.map (fun e => e.role)
        = (List.replicate (nt.toNat * ags.length) ["user", "assistant"]).flatten
    ∧ st.conversation_history.length = 2 * (nt.toNat * ags.length)
    ∧ ∀ (ag : AgentConfig) (s s' : ConvState),
        runTurn cfg adapter ag s = .ok s' →
        s'.conversation_history.length = s.conversation_history.length + 2 := by
  obtain ⟨-, -, h3, -, -, -, -⟩ := runConversation_ok hnt hags hrun
  refine ⟨h3, ?_, ?_⟩
  · have := congrArg List.length h3
    rw [List.length_map, length_flatten_replicate] at this
    simpa [Nat.mul_comm] using this
  · intro ag s s' hturn
    obtain ⟨t, -, hstep⟩ := runTurn_ok hturn
    subst hstep
    simp [stepState]

/-- Witness for C1 at a concrete run: roster `[A, B]`, 2 rounds, the
always-succeeding client. -/
theorem history_alternation_witness :
    ((okState (runConversation cfgAB adOk 0)).conversation_history.map
          (fun e => e.role)
        = (List.replicate ((2 : Int).toNat * rosterAB.length)
            ["user", "assistant"]).flatten)
    ∧ (okState (runConversation cfgAB adOk 0)).conversation_history.length
        = 2 * ((2 : Int).toNat * rosterAB.length)
    ∧ (stepState cfgAB ⟨"A", "sysA"⟩ (initStateAt 0) "hi").conversation_history.length
        = (initStateAt 0).conversation_history.length + 2 := by
  have h := @history_alternation cfgAB adOk 0 2 rosterAB
    (okState (runConversation cfgAB adOk 0)) rfl rfl rfl
  exact ⟨h.1, h.2.1, h.2.2 ⟨"A", "sysA"⟩ (initStateAt 0)
    (stepState cfgAB ⟨"A", "sysA"⟩ (initStateAt 0) "hi") rfl⟩

/-- C2: a successful conversation returns a transcript of exactly
`num_turns * len(agents)` entries, each tagged role `"assistant"` with a
speaker drawn from the roster, and the speaker sequence is the roster
repeated round by round in chronological turn order. -/
theorem transcript_shape {cfg : Config} {adapter : Adapter} {k : Nat}
    {nt : Int} {ags : List AgentConfig} {st : ConvState}
    (hnt : cfg.num_turns = some nt) (hags : cfg.agents = some ags)
    (hrun : runConversation cfg adapter k = .ok st) :
    st.messages.length = nt.toNat * ags.length
    ∧ (∀ e ∈ st.messages, e.role = "assistant")
    ∧ (∀ e ∈ st.messages, e.speaker ∈ ags.map (fun a => a.name))
    ∧ st.messages.map (fun e => e.speaker)
        = (List.replicate nt.toNat (ags.map (fun a => a.name))).flatten := by
  obtain ⟨h1, h2, -, -, -, -, -⟩ := runConversation_ok hnt hags hrun
  refine ⟨?_, ?_, ?_, h1⟩
  · have := congrArg List.length h2
    rw [List.length_map, List.length_replicate] at this
    exact this
  · intro e he
    have hm : e.role ∈ st.messages.map (fun e => e.role) :=
      List.mem_map_of_mem _ he
    rw [h2] at hm
    exact List.eq_of_mem_replicate hm
  · intro e he
    have hm : e.speaker ∈ st.messages.map (fun e => e.speaker) :=
      List.mem_map_of_mem _ he
    rw [h1] at hm
    exact mem_of_mem_flatten_replicate hm

/-- Witness for C2 at the concrete two-agent, two-round run. -/
theorem transcript_shape_witness :
    (okState (runConversation cfgAB adOk 0)).messages.length
        = (2 : Int).toNat * rosterAB.length
    ∧ (⟨"assistant", "A", "hi"⟩ : TranscriptEntry).role = "assistant"
    ∧ (⟨"assistant", "A", "hi"⟩ : TranscriptEntry).speaker
        ∈ rosterAB.map (fun a => a.name)
    ∧ (okState (runConversation cfgAB adOk 0)).messages.map (fun e => e.speaker)
        = (List.replicate (2 : Int).toNat
            (rosterAB.map (fun a => a.name))).flatten := by
  have h := @transcript_shape cfgAB adOk 0 2 rosterAB
    (okState (runConversation cfgAB adOk 0)) rfl rfl rfl
  exact ⟨h.1, h.2.1 ⟨"assistant", "A", "hi"⟩ (by decide),
    h.2.2.1 ⟨"assistant", "A", "hi"⟩ (by decide), h.2.2.2⟩

/-- Extracting round `r` from a flattened replicated block list. -/
theorem flatten_replicate_extract {α : Type} (l : List α) :
    ∀ (n r : Nat), r < n →
      (((List.replicate n l).flatten.drop (r * l.length)).take l.length) = l := by
  intro n
  induction n with
  | zero => intro r hr; exact absurd hr (Nat.not_lt_zero r)
  | succ m ih =>
    intro r hr
    rw [List.replicate_succ, List.flatten_cons]
    cases r with
    | zero =>
      rw [Nat.zero_mul, List.drop_zero, List.take_left]
    | succ r' =>
      have hm : (r' + 1) * l.length = l.length + r' * l.length := by ring
      rw [hm, ← List.drop_drop, List.drop_left]
      exact ih r' (by omega)

/-- C4: within every round `r` of a successful conversation, the transcript
speakers of that round (entries `r * len(agents)` up to the next round) are
exactly the configured roster order; since this holds for every
`r < num_turns` of the chronologically-ordered transcript, rounds execute in
strictly increasing order with no (round, agent) pair reordered or skipped. -/
theorem roster_order {cfg : Config} {adapter : Adapter} {k : Nat}
    {nt : Int} {ags : List AgentConfig} {st : ConvState}
    (hnt : cfg.num_turns = some nt) (hags : cfg.agents = some ags)
    (hrun : runConversation cfg adapter k = .ok st) :
    ∀ r : Nat, r < nt.toNat →
      ((st.messages.drop (r * ags.length)).take ags.length).map
          (fun e => e.speaker)
        = ags.map (fun a => a.name) := by
  obtain ⟨h1, -, -, -, -, -, -⟩ := runConversation_ok hnt hags hrun
  intro r hr
  have hL : ags.length = (ags.map (fun a => a.name)).length :=
    (List.length_map _ _).symm
  rw [List.map_take, List.map_drop, h1, hL]
  exact flatten_replicate_extract (ags.map (fun a => a.name)) nt.toNat r hr

/-- Witness for C4: round 1 of the concrete two-agent, two-round run. -/
theorem roster_order_witness :
    (((okState (runConversation cfgAB adOk 0)).messages.drop
          (1 * rosterAB.length)).take rosterAB.length).map (fun e => e.speaker)
      = rosterAB.map (fun a => a.name) :=
  @roster_order cfgAB adOk 0 2 rosterAB
    (okState (runConversation cfgAB adOk 0)) rfl rfl rfl 1 (by decide)

/-- C3: after a successful model call, the advance step appends
`{user, current_message}` then `{assistant, t}` to the history and sets
`current_message = t`; every subsequent request context is the new history
plus one relabeled user message carrying the previous assistant output; and
on the concrete `[A, B]`, 2-round run, the first request context is exactly
the single seeded user greeting and the second is
`[{user, greeting}, {assistant, reply1}, {user, reply1}]`. -/
theorem advance_and_context {cfg : Config} {adapter : Adapter} :
    (∀ (ag : AgentConfig) (s s' : ConvState),
        runTurn cfg adapter ag s = .ok s' →
        adapter s.callIdx (mkCall cfg ag s) = .ok s'.current_message
        ∧ s'.conversation_history
            = s.conversation_history
                ++ [⟨"user", s.current_message⟩,
                    ⟨"assistant", s'.current_message⟩]
        ∧ ∀ ag2, (mkCall cfg ag2 s').messages
            = s'.conversation_history ++ [⟨"user", s'.current_message⟩])
    ∧ (∀ (ag : AgentConfig) (k : Nat),
        (mkCall cfg ag (initStateAt k)).messages = [⟨"user", greeting⟩])
    ∧ ((okState (runConversation cfgAB adSeq 0)).calls.map
          (fun c => c.messages)).take 2
        = [[⟨"user", greeting⟩],
           [⟨"user", greeting⟩, ⟨"assistant", "reply1"⟩, ⟨"user", "reply1"⟩]]
    ∧ (okState (runConversation cfgAB adSeq 0)).messages.map
          (fun e => (e.speaker, e.content))
        = [("A", "reply1"), ("B", "reply2"), ("A", "reply3"), ("B", "reply4")] := by
  refine ⟨?_, ?_, by decide, by decide⟩
  · intro ag s s' h
    obtain ⟨t, hadapt, hstep⟩ := runTurn_ok h
    subst hstep
    exact ⟨hadapt, rfl, fun ag2 => rfl⟩
  · intro ag k
    rfl

/-- Witness for C3: the first turn of the concrete run, taken by agent `A`
from the seeded initial state. -/
theorem advance_and_context_witness :
    adSeq (initStateAt 0).callIdx (mkCall cfgAB ⟨"A", "sysA"⟩ (initStateAt 0))
        = .ok (stepState cfgAB ⟨"A", "sysA"⟩ (initStateAt 0) "reply1").current_message
    ∧ (stepState cfgAB ⟨"A", "sysA"⟩ (initStateAt 0) "reply1").conversation_history
        = (initStateAt 0).conversation_history
            ++ [⟨"user", (initStateAt 0).current_message⟩,
                ⟨"assistant",
                  (stepState cfgAB ⟨"A", "sysA"⟩ (initStateAt 0)
                    "reply1").current_message⟩]
    ∧ (mkCall cfgAB ⟨"B", "sysB"⟩
          (stepState cfgAB ⟨"A", "sysA"⟩ (initStateAt 0) "reply1")).messages
        = (stepState cfgAB ⟨"A", "sysA"⟩ (initStateAt 0)
            "reply1").conversation_history
            ++ [⟨"user",
                  (stepState cfgAB ⟨"A", "sysA"⟩ (initStateAt 0)
                    "reply1").current_message⟩] := by
  have h := (@advance_and_context cfgAB adSeq).1
    ⟨"A", "sysA"⟩ (initStateAt 0)
    (stepState cfgAB ⟨"A", "sysA"⟩ (initStateAt 0) "reply1") rfl
  exact ⟨h.1, h.2.1, h.2.2 ⟨"B", "sysB"⟩⟩

/-- C8: `buildRequestContext` returns
`history + [{role:"user", content: current_message}]` without mutating the
weaver state, so two consecutive builds with no intervening `advance` return
identical output; the `messages` argument the code sends to the model is
exactly this built context. -/
theorem buildRequestContext_pure :
    ∀ (s : WeaverState),
      buildRequestContext s
          = (s.history ++ [⟨"user", s.current_message⟩], s)
      ∧ (buildRequestContext (buildRequestContext s).2).1
          = (buildRequestContext s).1
      ∧ ∀ (cfg : Config) (ag : AgentConfig) (st : ConvState),
          (mkCall cfg ag st).messages = (buildRequestContext st.weaver).1 :=
  fun _ => ⟨rfl, rfl, fun _ _ _ => rfl⟩

/-- With an empty roster, every round is a no-op pass. -/
theorem runRounds_empty_roster (cfg : Config) (adapter : Adapter)
    (hags : cfg.agents = some []) :
    ∀ (n : Nat) (st : ConvState), runRounds cfg adapter n st = .ok st := by
  intro n
  induction n with
  | zero => intro st; rfl
  | succ m ih =>
    intro st
    simp only [runRounds, hags, runAgents]
    exact ih st

/-- With an empty roster, every sample returns an empty transcript and the
call index never moves. -/
theorem runSamplesAux_empty_roster (cfg : Config) (adapter : Adapter)
    (nt : Int) (hags : cfg.agents = some []) (hnt : cfg.num_turns = some nt) :
    ∀ (n k : Nat),
      runSamplesAux cfg adapter k n = .ok (List.replicate n []) := by
  intro n
  induction n with
  | zero => intro k; rfl
  | succ m ih =>
    intro k
    have hconv : runConversation cfg adapter k = .ok (initStateAt k) := by
      unfold runConversation
      rw [hnt]
      exact runRounds_empty_roster cfg adapter hags nt.toNat (initStateAt k)
    simp only [runSamplesAux]
    rw [hconv]
    simp only [initStateAt]
    rw [ih k]
    rfl

/-- C5 counterexample: the code performs no configuration validation. An
empty roster, a negative `num_turns`, and a zero `num_samples` are all
accepted: the run returns successfully (with empty transcripts / an empty
result list) instead of rejecting the config with a `ConfigurationError`
before any conversation starts. -/
theorem no_validation_counterexample :
    runSamples cfgEmptyRoster adOk = .ok [[], [], []]
    ∧ runSamples cfgNegTurns adOk = .ok [[], []]
    ∧ runSamples cfgZeroSamples adOk = .ok [] :=
  ⟨rfl, rfl, rfl⟩

/-- C5 amended: no validation exists. For every adapter, a config with an
empty agent roster yields `num_samples` successful empty conversations; a
non-positive `num_turns` makes each conversation succeed immediately with
no model call; a non-positive `num_samples` makes `run_samples` return an
empty result list. No error is ever raised for such configs. -/
theorem no_validation {mn : String} (adapter : Adapter) :
    (∀ (nt ns : Int),
        runSamples ⟨mn, some [], some nt, some ns⟩ adapter
          = .ok (List.replicate ns.toNat []))
    ∧ (∀ (ags : Option (List AgentConfig)) (nt : Int) (nso : Option Int)
          (k : Nat), nt ≤ 0 →
        runConversation ⟨mn, ags, some nt, nso⟩ adapter k
          = .ok (initStateAt k))
    ∧ (∀ (ags : Option (List AgentConfig)) (nto : Option Int) (ns : Int),
        ns ≤ 0 →
        runSamples ⟨mn, ags, nto, some ns⟩ adapter = .ok []) := by
  refine ⟨?_, ?_, ?_⟩
  · intro nt ns
    unfold runSamples
    exact runSamplesAux_empty_roster _ adapter nt rfl rfl _ 0
  · intro ags nt nso k hnt
    unfold runConversation
    simp only []
    rw [show nt.toNat = 0 by omega]
    rfl
  · intro ags nto ns hns
    unfold runSamples
    simp only [Option.getD]
    rw [show ns.toNat = 0 by omega]
    rfl

/-- Witness for C5's amended claim at concrete invalid configs. -/
theorem no_validation_witness :
    runSamples ⟨"claude-3", some [], some 2, some 3⟩ adOk
        = .ok (List.replicate (3 : Int).toNat [])
    ∧ runConversation ⟨"claude-3", some [⟨"A", "sysA"⟩], some (-1), some 2⟩
        adOk 0 = .ok (initStateAt 0)
    ∧ runSamples ⟨"claude-3", some [⟨"A", "sysA"⟩], some 1, some (-3)⟩ adOk
        = .ok [] :=
  ⟨(no_validation adOk).1 2 3,
    (no_validation adOk).2.1 (some [⟨"A", "sysA"⟩]) (-1) (some 2) 0 (by decide),
    (no_validation adOk).2.2 (some [⟨"A", "sysA"⟩]) (some 1) (-3) (by decide)⟩

/-- C6 counterexample: with five one-call samples and a client whose third
call (sample 3) raises a server error, `run_samples` returns that error:
samples 1 and 2 are discarded and samples 4 and 5 never run, so no other
sample appears in any result. -/
theorem batch_abort_counterexample :
    runSamples cfgFive adFail3 = .error (.modelError .ServerError) := rfl

/-- C6 amended: there is no partial-failure isolation. If the sample after
`j` successful samples fails with error `e`, the whole `run_samples` loop
propagates `e`: already-completed transcripts are discarded and the
remaining samples are never run. -/
theorem sample_failure_aborts_batch (cfg : Config) (adapter : Adapter) :
    ∀ (j k k' n : Nat) (e : RunError),
      callIdxAfterSamples cfg adapter k j = some k' →
      j < n →
      runConversation cfg adapter k' = .error e →
      runSamplesAux cfg adapter k n = .error e := by
  intro j
  induction j with
  | zero =>
    intro k k' n e hidx hlt hfail
    simp only [callIdxAfterSamples, Option.some.injEq] at hidx
    subst hidx
    cases n with
    | zero => omega
    | succ m =>
      simp only [runSamplesAux]
      rw [hfail]
  | succ j' ih =>
    intro k k' n e hidx hlt hfail
    simp only [callIdxAfterSamples] at hidx
    cases hconv : runConversation cfg adapter k with
    | error e2 => rw [hconv] at hidx; simp at hidx
    | ok st =>
      rw [hconv] at hidx
      simp only [] at hidx
      cases n with
      | zero => omega
      | succ m =>
        have hrest := ih st.callIdx k' m e hidx (by omega) hfail
        simp only [runSamplesAux, hconv, hrest]

/-- Witness for C6's amended claim: the concrete five-sample batch whose
third sample fails. -/
theorem sample_failure_aborts_batch_witness :
    runSamplesAux cfgFive adFail3 0 5 = .error (.modelError .ServerError) :=
  sample_failure_aborts_batch cfgFive adFail3 2 0 2 5
    (.modelError .ServerError) rfl (by decide) rfl

/-- C7 counterexample: a client that is rate-limited on exactly its first
call and would succeed on the retry (`k = 1` failure, below any attempt
limit) does not yield a successful conversation: the run fails immediately
with the rate-limit error. -/
theorem no_retry_counterexample :
    runConversation cfgOne adRate1 0 = .error (.modelError .RateLimited)
    ∧ adRate1 1 (mkCall cfgOne ⟨"A", "sysA"⟩ (initStateAt 0)) = .ok "ok" :=
  ⟨rfl, rfl⟩

/-- C7 amended: no retry or backoff exists. A model-call error of any kind
(retriable per the spec's taxonomy or not) immediately fails the turn, and
the failure propagates out of the roster pass — the same call is never
reissued. -/
theorem no_retry (cfg : Config) (adapter : Adapter) (ag : AgentConfig)
    (rest : List AgentConfig) (st : ConvState) (e : ErrorKind)
    (hfail : adapter st.callIdx (mkCall cfg ag st) = .error e) :
    runTurn cfg adapter ag st = .error (.modelError e)
    ∧ runAgents cfg adapter (ag :: rest) st = .error (.modelError e) := by
  have h1 : runTurn cfg adapter ag st = .error (.modelError e) := by
    simp [runTurn, hfail]
  refine ⟨h1, ?_⟩
  simp only [runAgents]
  rw [h1]

/-- Witness for C7's amended claim at the concrete rate-limited first call. -/
theorem no_retry_witness :
    runTurn cfgOne adRate1 ⟨"A", "sysA"⟩ (initStateAt 0)
        = .error (.modelError .RateLimited)
    ∧ runAgents cfgOne adRate1 [⟨"A", "sysA"⟩] (initStateAt 0)
        = .error (.modelError .RateLimited) :=
  no_retry cfgOne adRate1 ⟨"A", "sysA"⟩ [] (initStateAt 0) .RateLimited rfl

/-- C9 counterexample: the per-call token ceiling is not carried by the
config. With a spec-style `ExperimentConfig` carrying token ceiling `42`
around the code's config dict, every call of the run is still issued with
`max_tokens = 1000` — the literal hardcoded at the call site — which differs
from the ceiling the config carries. -/
theorem token_ceiling_not_from_config :
    (okState (runConversation specCfg42.base adOk 0)).calls.map
        (fun c => c.max_tokens) = [1000]
    ∧ specCfg42.token_ceiling = 42
    ∧ (1000 : Nat) ≠ 42 :=
  ⟨rfl, rfl, by decide⟩

/-- C9 amended: every model call of a successful run is issued with the
same four-argument shape — the config's `model_name`, the current agent's
`system_prompt` (roster order, round by round), the built request context,
and `max_tokens = 1000` — where `1000` is a constant of the call site,
identical across all calls but not read from the config. -/
theorem call_arguments {cfg : Config} {adapter : Adapter} {k : Nat}
    {nt : Int} {ags : List AgentConfig} {st : ConvState}
    (hnt : cfg.num_turns = some nt) (hags : cfg.agents = some ags)
    (hrun : runConversation cfg adapter k = .ok st) :
    st.calls.map (fun c => c.max_tokens)
        = List.replicate (nt.toNat * ags.length) 1000
    ∧ st.calls.map (fun c => c.model)
        = List.replicate (nt.toNat * ags.length) cfg.model_name
    ∧ st.calls.map (fun c => c.system)
        = (List.replicate nt.toNat (ags.map (fun a => a.system_prompt))).flatten
    ∧ ∀ (ag : AgentConfig) (s : ConvState),
        (mkCall cfg ag s).messages
          = s.conversation_history ++ [⟨"user", s.current_message⟩] := by
  obtain ⟨-, -, -, h4, h5, h6, -⟩ := runConversation_ok hnt hags hrun
  exact ⟨h4, h5, h6, fun _ _ => rfl⟩

/-- Witness for C9's amended claim at the concrete two-agent run. -/
theorem call_arguments_witness :
    (okState (runConversation cfgAB adOk 0)).calls.map (fun c => c.max_tokens)
        = List.replicate ((2 : Int).toNat * rosterAB.length) 1000
    ∧ (okState (runConversation cfgAB adOk 0)).calls.map (fun c => c.model)
        = List.replicate ((2 : Int).toNat * rosterAB.length) cfgAB.model_name
    ∧ (okState (runConversation cfgAB adOk 0)).calls.map (fun c => c.system)
        = (List.replicate (2 : Int).toNat
            (rosterAB.map (fun a => a.system_prompt))).flatten
    ∧ (mkCall cfgAB ⟨"A", "sysA"⟩ (initStateAt 0)).messages
        = (initStateAt 0).conversation_history
            ++ [⟨"user", (initStateAt 0).current_message⟩] := by
  have h := @call_arguments cfgAB adOk 0 2 rosterAB
    (okState (runConversation cfgAB adOk 0)) rfl rfl rfl
  exact ⟨h.1, h.2.1, h.2.2.1, h.2.2.2 ⟨"A", "sysA"⟩ (initStateAt 0)⟩

/-- C10: a config without a `num_samples` key silently runs exactly one
sample and returns a one-element result list; no such default exists for
`num_turns` or the agent roster — a missing `num_turns` key fails every
conversation with a `KeyError`, and a missing `agents` key fails every
conversation that runs at least one round. -/
theorem num_samples_default {cfg : Config} {adapter : Adapter} :
    (∀ st : ConvState, cfg.num_samples = none →
        runConversation cfg adapter 0 = .ok st →
        runSamples cfg adapter = .ok [st.messages])
    ∧ (cfg.num_turns = none →
        ∀ k, runConversation cfg adapter k = .error (.keyError "num_turns"))
    ∧ (∀ nt : Int, cfg.num_turns = some nt → 1 ≤ nt → cfg.agents = none →
        ∀ k, runConversation cfg adapter k = .error (.keyError "agents")) := by
  refine ⟨?_, ?_, ?_⟩
  · intro st hns hconv
    unfold runSamples
    rw [hns]
    show runSamplesAux cfg adapter 0 1 = .ok [st.messages]
    simp only [runSamplesAux, hconv]
  · intro hnt k
    unfold runConversation
    rw [hnt]
  · intro nt hnt hpos hags k
    obtain ⟨m, hm⟩ : ∃ m, nt.toNat = m + 1 := by
      refine ⟨nt.toNat - 1, ?_⟩
      omega
    unfold runConversation
    rw [hnt]
    simp only []
    rw [hm]
    simp only [runRounds, hags]

/-- Witness for C10 at concrete configs with each key missing in turn. -/
theorem num_samples_default_witness :
    runSamples cfgNoSamplesKey adOk
        = .ok [(okState (runConversation cfgNoSamplesKey adOk 0)).messages]
    ∧ runConversation cfgNoTurnsKey adOk 0
        = .error (.keyError "num_turns")
    ∧ runConversation cfgNoAgentsKey adOk 0
        = .error (.keyError "agents") :=
  ⟨(@num_samples_default cfgNoSamplesKey adOk).1
      (okState (runConversation cfgNoSamplesKey adOk 0)) rfl rfl,
    (@num_samples_default cfgNoTurnsKey adOk).2.1 rfl 0,
    (@num_samples_default cfgNoAgentsKey adOk).2.2 1
      rfl (by decide) rfl 0⟩
